import Mathlib

/-!
Shallow embedding of the `blueprint-ts-core` library (pagination engine,
multipart body encoder, payload transformer, route-resource injection),
together with theorems settling the specification's claims about it.

Machine integers do not occur in the modelled code paths (page numbers and
totals are ordinary JavaScript numbers used only for small arithmetic), so
they are modelled as `Int`.
-/

set_option maxHeartbeats 1000000

namespace BlueprintTs

/-! ## Pagination: data transfer objects

`PaginationDataDto` carries `{data, total}`; `StatePaginationDataDto`
additionally carries the opaque cursor `state : string | null`, modelled as
`Option String` (with `none` for `null`).  From
`src/service/pagination/dtos/PaginationDataDto.ts` and
`src/service/pagination/dtos/StatePaginationDataDto.ts`. -/

structure PaginationDataDto (α : Type) where
  data : List α
  total : Int

structure StatePaginationDataDto (α : Type) where
  data : List α
  total : Int
  state : Option String

/-- `StatePaginationDataDto.getState` returns the held state token. -/
def StatePaginationDataDto.getState {α : Type} (dto : StatePaginationDataDto α) :
    Option String :=
  dto.state

/-- `StatePaginationDataDto.hasNextPage` per the source: `this.state !== null`. -/
def StatePaginationDataDto.hasNextPage {α : Type} (dto : StatePaginationDataDto α) : Bool :=
  dto.state.isSome

/-! ## Pagination: view drivers

`VueBaseViewDriver` (in src/) holds a data list and a total behind plain
getters/setters; it backs `StatePaginator` and `InfiniteScroller`'s base
behaviour.  Modelled as a record whose `setData`/`setTotal` are functional
field updates. -/

structure BaseViewDriver (α : Type) where
  data : List α := []
  total : Int := 0

/-- Modelled from the spec: the page-aware view driver implementation
(`VuePaginationDriver`) is not under `src/` (only its
`ViewDriverContract` is).  Per spec §4.6/§6 the page-aware driver holds
`currentPage`, `pageSize`, `total` and the displayed data slice behind plain
getters/setters, and `getLastPage()` is the number of pages,
`⌈total / pageSize⌉` (spec §8: total 25, pageSize 10 ⇒ last page 3). -/
structure ViewDriver (α : Type) where
  data : List α := []
  total : Int := 0
  currentPage : Int := 1
  pageSize : Int := 10

/-- Modelled from the spec: `getLastPage` = ceiling of `total / pageSize`. -/
def ViewDriver.getLastPage {α : Type} (v : ViewDriver α) : Int :=
  (v.total + v.pageSize - 1) / v.pageSize

/-- Options bag `{ flush?, replace? }` from
`src/service/pagination/contracts/PaginatorLoadDataOptions.ts`; the source
destructures it with defaults `flush = false, replace = false`. -/
structure PaginatorLoadDataOptions where
  flush : Bool := false
  replace : Bool := false

/-! ## StatePaginator (cursor/state-based)

From `src/service/pagination/StatePaginator.ts`.  The data driver
`get(state)` is modelled as a function argument
`dataDriver : Option String → StatePaginationDataDto α`; each operation
returns the updated paginator together with the dto the driver produced
(the promise's resolution value). -/

structure StatePaginator (α : Type) where
  viewDriver : BaseViewDriver α := {}
  currentState : Option String := none
  initialized : Bool := false

namespace StatePaginator

variable {α : Type}

/-- `BasePaginator.flush`: `this.viewDriver.setData([])`. -/
def flush (s : StatePaginator α) : StatePaginator α :=
  { s with viewDriver := { s.viewDriver with data := [] } }

/-- `StatePaginator.hasNextPage`: `this.currentState !== null`. -/
def hasNextPage (s : StatePaginator α) : Bool :=
  s.currentState.isSome

/-- `StatePaginator.getCurrentState`. -/
def getCurrentState (s : StatePaginator α) : Option String :=
  s.currentState

/-- `StatePaginator.passStateDataToViewDriver`: destructure
`{flush = false, replace = false}` from `options || {}`; flush clears held
data; replace sets the dto's data, otherwise the dto's data is concatenated
onto the held data; finally the total is set from the dto. -/
def passStateDataToViewDriver (dto : StatePaginationDataDto α)
    (options : Option PaginatorLoadDataOptions) (s : StatePaginator α) :
    StatePaginator α :=
  let opts := options.getD {}
  let s := if opts.flush then s.flush else s
  let s :=
    if opts.replace then
      { s with viewDriver := { s.viewDriver with data := dto.data } }
    else
      { s with viewDriver := { s.viewDriver with data := s.viewDriver.data ++ dto.data } }
  { s with viewDriver := { s.viewDriver with total := dto.total } }

/-- `StatePaginator.loadData`: fetch with the currently held token, then
`currentState := value.getState()` and pass the dto to the view driver. -/
def loadData (dataDriver : Option String → StatePaginationDataDto α)
    (options : Option PaginatorLoadDataOptions) (s : StatePaginator α) :
    StatePaginator α × StatePaginationDataDto α :=
  let value := dataDriver s.currentState
  let s := { s with currentState := value.getState }
  (passStateDataToViewDriver value options s, value)

/-- `StatePaginator.init`: mark initialized, reset the token, load. -/
def init (dataDriver : Option String → StatePaginationDataDto α)
    (s : StatePaginator α) : StatePaginator α × StatePaginationDataDto α :=
  loadData dataDriver none { s with initialized := true, currentState := none }

/-- `StatePaginator.refresh`: `currentState = null`, then
`loadData({...options, flush: true})`. -/
def refresh (dataDriver : Option String → StatePaginationDataDto α)
    (options : Option PaginatorLoadDataOptions) (s : StatePaginator α) :
    StatePaginator α × StatePaginationDataDto α :=
  loadData dataDriver (some { options.getD {} with flush := true })
    { s with currentState := none }

/-- `StatePaginator.loadNext`: `loadData()`. -/
def loadNext (dataDriver : Option String → StatePaginationDataDto α)
    (s : StatePaginator α) : StatePaginator α × StatePaginationDataDto α :=
  loadData dataDriver none s

end StatePaginator

/-! ## PageAwarePaginator (page-based)

From `src/service/pagination/PageAwarePaginator.ts` over
`BasePaginator` (`passDataToViewDriver`).  The data driver `get(page, size)`
is a function argument; every operation additionally returns the list of
`(page, size)` fetches it issued, so "funnels through one `loadData` call"
is a provable statement about that log. -/

structure PageAwarePaginator (α : Type) where
  viewDriver : ViewDriver α := {}
  initialized : Bool := false

namespace PageAwarePaginator

variable {α : Type}

/-- `BasePaginator.flush`: `this.viewDriver.setData([])`. -/
def flush (p : PageAwarePaginator α) : PageAwarePaginator α :=
  { p with viewDriver := { p.viewDriver with data := [] } }

/-- `BasePaginator.passDataToViewDriver`: optional flush, then
`setData(dto.getData()); setTotal(dto.getTotal())` — data is always replaced. -/
def passDataToViewDriver (dto : PaginationDataDto α)
    (options : Option PaginatorLoadDataOptions) (p : PageAwarePaginator α) :
    PageAwarePaginator α :=
  let p := if (options.getD {}).flush then p.flush else p
  { p with viewDriver := { p.viewDriver with data := dto.data, total := dto.total } }

/-- `PageAwarePaginator.getCurrentPage`. -/
def getCurrentPage (p : PageAwarePaginator α) : Int :=
  p.viewDriver.currentPage

/-- `PageAwarePaginator.getPageSize`. -/
def getPageSize (p : PageAwarePaginator α) : Int :=
  p.viewDriver.pageSize

/-- `BasePaginator.getTotal`. -/
def getTotal (p : PageAwarePaginator α) : Int :=
  p.viewDriver.total

/-- `PageAwarePaginator.getLastPage` delegates to the view driver. -/
def getLastPage (p : PageAwarePaginator α) : Int :=
  p.viewDriver.getLastPage

/-- `PageAwarePaginator.loadData`: one driver fetch, dto passed to the view
driver; the returned log records the single `(page, size)` fetch. -/
def loadData (dataDriver : Int → Int → PaginationDataDto α)
    (pageNumber pageSize : Int) (options : Option PaginatorLoadDataOptions)
    (p : PageAwarePaginator α) : PageAwarePaginator α × List (Int × Int) :=
  let value := dataDriver pageNumber pageSize
  (passDataToViewDriver value options p, [(pageNumber, pageSize)])

/-- `PageAwarePaginator.setPage`: `viewDriver.setPage(n)`, then
`loadData(viewDriver.getCurrentPage(), viewDriver.getPageSize())`. -/
def setPage (dataDriver : Int → Int → PaginationDataDto α) (pageNumber : Int)
    (options : Option PaginatorLoadDataOptions) (p : PageAwarePaginator α) :
    PageAwarePaginator α × List (Int × Int) :=
  let p := { p with viewDriver := { p.viewDriver with currentPage := pageNumber } }
  loadData dataDriver p.viewDriver.currentPage p.viewDriver.pageSize options p

/-- `PageAwarePaginator.toNextPage`: `setPage(getCurrentPage() + 1)`. -/
def toNextPage (dataDriver : Int → Int → PaginationDataDto α)
    (p : PageAwarePaginator α) : PageAwarePaginator α × List (Int × Int) :=
  setPage dataDriver (p.getCurrentPage + 1) none p

/-- `PageAwarePaginator.toFirstPage`: `setPage(1)`. -/
def toFirstPage (dataDriver : Int → Int → PaginationDataDto α)
    (p : PageAwarePaginator α) : PageAwarePaginator α × List (Int × Int) :=
  setPage dataDriver 1 none p

/-- `PageAwarePaginator.toLastPage`: `setPage(viewDriver.getLastPage())`. -/
def toLastPage (dataDriver : Int → Int → PaginationDataDto α)
    (p : PageAwarePaginator α) : PageAwarePaginator α × List (Int × Int) :=
  setPage dataDriver p.getLastPage none p

/-- `PageAwarePaginator.toPreviousPage`: `setPage(getCurrentPage() - 1)`. -/
def toPreviousPage (dataDriver : Int → Int → PaginationDataDto α)
    (p : PageAwarePaginator α) : PageAwarePaginator α × List (Int × Int) :=
  setPage dataDriver (p.getCurrentPage - 1) none p

/-- `PageAwarePaginator.setPageSize`: `viewDriver.setPageSize(s)`; if
`getCurrentPage() * s > getTotal()` then `setPage(1)` else
`loadData(viewDriver.getCurrentPage(), viewDriver.getPageSize())`. -/
def setPageSize (dataDriver : Int → Int → PaginationDataDto α)
    (pageSize : Int) (p : PageAwarePaginator α) :
    PageAwarePaginator α × List (Int × Int) :=
  let p := { p with viewDriver := { p.viewDriver with pageSize := pageSize } }
  if p.getCurrentPage * pageSize > p.getTotal then
    setPage dataDriver 1 none p
  else
    loadData dataDriver p.viewDriver.currentPage p.viewDriver.pageSize none p

/-- `PageAwarePaginator.refresh`: with a page number delegates to `setPage`,
otherwise reloads the current page at the current size. -/
def refresh (dataDriver : Int → Int → PaginationDataDto α)
    (pageNumber : Option Int) (options : Option PaginatorLoadDataOptions)
    (p : PageAwarePaginator α) : PageAwarePaginator α × List (Int × Int) :=
  match pageNumber with
  | some n => setPage dataDriver n options p
  | none => loadData dataDriver p.getCurrentPage p.getPageSize options p

end PageAwarePaginator

/-! ## InfiniteScroller

From `src/service/pagination/InfiniteScroller.ts`: extends
`PageAwarePaginator` and overrides only `passDataToViewDriver` with
flush/replace/append semantics, so every inherited navigation method
dispatches to the overriding accumulation policy. -/

namespace InfiniteScroller

variable {α : Type}

/-- `InfiniteScroller.passDataToViewDriver` (override): flush clears held
data; replace sets the dto's data; otherwise the dto's data is appended to
the held data; the total is always set from the dto. -/
def passDataToViewDriver (dto : PaginationDataDto α)
    (options : PaginatorLoadDataOptions) (p : PageAwarePaginator α) :
    PageAwarePaginator α :=
  let p := if options.flush then p.flush else p
  let p :=
    if options.replace then
      { p with viewDriver := { p.viewDriver with data := dto.data } }
    else
      { p with viewDriver := { p.viewDriver with data := p.viewDriver.data ++ dto.data } }
  { p with viewDriver := { p.viewDriver with total := dto.total } }

/-- Inherited `loadData`, dynamically dispatching to the overridden
`passDataToViewDriver` (the `options` default `{}` comes from the override's
signature). -/
def loadData (dataDriver : Int → Int → PaginationDataDto α)
    (pageNumber pageSize : Int) (options : Option PaginatorLoadDataOptions)
    (p : PageAwarePaginator α) : PageAwarePaginator α × List (Int × Int) :=
  let value := dataDriver pageNumber pageSize
  (passDataToViewDriver value (options.getD {}) p, [(pageNumber, pageSize)])

/-- Inherited `setPage` body over the overriding `loadData`. -/
def setPage (dataDriver : Int → Int → PaginationDataDto α) (pageNumber : Int)
    (options : Option PaginatorLoadDataOptions) (p : PageAwarePaginator α) :
    PageAwarePaginator α × List (Int × Int) :=
  let p := { p with viewDriver := { p.viewDriver with currentPage := pageNumber } }
  loadData dataDriver p.viewDriver.currentPage p.viewDriver.pageSize options p

/-- Inherited `toNextPage` body over the overriding load path. -/
def toNextPage (dataDriver : Int → Int → PaginationDataDto α)
    (p : PageAwarePaginator α) : PageAwarePaginator α × List (Int × Int) :=
  setPage dataDriver (p.getCurrentPage + 1) none p

end InfiniteScroller

/-! ## Claims C4–C7 and C10 -/

/-- C4: for every `StatePaginator` and every sequence of operations,
`hasNextPage()` is true iff the held state token is non-null; and after any
load completes (`loadData`, also reached from `init`/`refresh`/`loadNext`),
`hasNextPage()` is false exactly when that fetch returned a null state
token. -/
theorem statePaginator_hasNextPage_iff_token {α : Type}
    (s : StatePaginator α) (d : Option String → StatePaginationDataDto α)
    (o : Option PaginatorLoadDataOptions) :
    (s.hasNextPage = true ↔ s.currentState ≠ none) ∧
    ((StatePaginator.loadData d o s).1.hasNextPage = false ↔
      (d s.currentState).state = none) ∧
    ((StatePaginator.loadNext d s).1.hasNextPage = false ↔
      (d s.currentState).state = none) ∧
    ((StatePaginator.init d s).1.hasNextPage = false ↔ (d none).state = none) ∧
    ((StatePaginator.refresh d o s).1.hasNextPage = false ↔
      (d none).state = none) := by
  refine ⟨?_, ?_, ?_, ?_, ?_⟩ <;>
    simp [StatePaginator.hasNextPage, StatePaginator.loadData,
      StatePaginator.loadNext, StatePaginator.init, StatePaginator.refresh,
      StatePaginator.passStateDataToViewDriver, StatePaginator.flush,
      StatePaginationDataDto.getState, Option.isSome_iff_ne_none] <;>
    repeat' split <;> simp_all [StatePaginator.flush, Option.isSome_iff_ne_none]

/-- C5: `StatePaginator.refresh` resets the token to null — so the fetch it
triggers is issued with a null token — and flushes the accumulated data
before reloading: afterwards the view driver holds exactly the newly fetched
data (nothing accumulated from before), the total comes from the fresh
response, and the token advances to the fresh response's token. -/
theorem statePaginator_refresh_flushes_and_reloads {α : Type}
    (s : StatePaginator α) (d : Option String → StatePaginationDataDto α)
    (o : Option PaginatorLoadDataOptions) :
    ((StatePaginator.refresh d o s).1.viewDriver.data = (d none).data) ∧
    ((StatePaginator.refresh d o s).1.viewDriver.total = (d none).total) ∧
    ((StatePaginator.refresh d o s).1.currentState = (d none).state) ∧
    ((StatePaginator.refresh d o s).2 = d none) := by
  refine ⟨?_, ?_, ?_, ?_⟩ <;>
    simp [StatePaginator.refresh, StatePaginator.loadData,
      StatePaginator.passStateDataToViewDriver, StatePaginator.flush,
      StatePaginationDataDto.getState] <;>
    split <;> simp

/-- C6: each of `setPage`, `toNextPage`, `toPreviousPage`, `toFirstPage` and
`toLastPage` on a `PageAwarePaginator` issues exactly one
`loadData(page, size)` fetch (the singleton fetch log), and when that load
completes the view driver's data equals exactly the newly fetched page's
results — replaced, not accumulated — with the total set from the
response. -/
theorem pageAwarePaginator_nav_ops_single_load_replace {α : Type}
    (p : PageAwarePaginator α) (d : Int → Int → PaginationDataDto α)
    (n : Int) (o : Option PaginatorLoadDataOptions) :
    ((PageAwarePaginator.setPage d n o p).2 = [(n, p.getPageSize)] ∧
      (PageAwarePaginator.setPage d n o p).1.viewDriver.data =
        (d n p.getPageSize).data ∧
      (PageAwarePaginator.setPage d n o p).1.viewDriver.total =
        (d n p.getPageSize).total) ∧
    ((PageAwarePaginator.toNextPage d p).2 =
        [(p.getCurrentPage + 1, p.getPageSize)] ∧
      (PageAwarePaginator.toNextPage d p).1.viewDriver.data =
        (d (p.getCurrentPage + 1) p.getPageSize).data) ∧
    ((PageAwarePaginator.toPreviousPage d p).2 =
        [(p.getCurrentPage - 1, p.getPageSize)] ∧
      (PageAwarePaginator.toPreviousPage d p).1.viewDriver.data =
        (d (p.getCurrentPage - 1) p.getPageSize).data) ∧
    ((PageAwarePaginator.toFirstPage d p).2 = [(1, p.getPageSize)] ∧
      (PageAwarePaginator.toFirstPage d p).1.viewDriver.data =
        (d 1 p.getPageSize).data) ∧
    ((PageAwarePaginator.toLastPage d p).2 = [(p.getLastPage, p.getPageSize)] ∧
      (PageAwarePaginator.toLastPage d p).1.viewDriver.data =
        (d p.getLastPage p.getPageSize).data) := by
  refine ⟨⟨?_, ?_, ?_⟩, ⟨?_, ?_⟩, ⟨?_, ?_⟩, ⟨?_, ?_⟩, ⟨?_, ?_⟩⟩ <;>
    simp [PageAwarePaginator.setPage, PageAwarePaginator.toNextPage,
      PageAwarePaginator.toPreviousPage, PageAwarePaginator.toFirstPage,
      PageAwarePaginator.toLastPage, PageAwarePaginator.loadData,
      PageAwarePaginator.passDataToViewDriver, PageAwarePaginator.flush,
      PageAwarePaginator.getCurrentPage, PageAwarePaginator.getPageSize,
      PageAwarePaginator.getLastPage] <;>
    split <;> simp

/-- C7: the `InfiniteScroller` load path appends the newly fetched results
to the view driver's existing data unless a replace or flush option is
given — replace makes the data exactly the new results, flush clears the
held data first — and in particular loading the next page appends rather
than replaces. -/
theorem infiniteScroller_load_appends {α : Type}
    (p : PageAwarePaginator α) (d : Int → Int → PaginationDataDto α)
    (dto : PaginationDataDto α) (o : PaginatorLoadDataOptions) :
    ((InfiniteScroller.passDataToViewDriver dto o p).viewDriver.data =
      if o.replace then dto.data
      else (if o.flush then [] else p.viewDriver.data) ++ dto.data) ∧
    ((InfiniteScroller.passDataToViewDriver dto o p).viewDriver.total =
      dto.total) ∧
    ((InfiniteScroller.toNextPage d p).1.viewDriver.data =
      p.viewDriver.data ++ (d (p.getCurrentPage + 1) p.getPageSize).data) ∧
    ((InfiniteScroller.toNextPage d p).2 =
      [(p.getCurrentPage + 1, p.getPageSize)]) := by
  refine ⟨?_, ?_, ?_, ?_⟩ <;>
    simp [InfiniteScroller.passDataToViewDriver, InfiniteScroller.toNextPage,
      InfiniteScroller.setPage, InfiniteScroller.loadData,
      PageAwarePaginator.flush, PageAwarePaginator.getCurrentPage,
      PageAwarePaginator.getPageSize] <;>
    split <;> split <;> simp

/-- C10: `PageAwarePaginator.setPageSize(s)` first sets the view driver's
page size to `s`; then, if `currentPage * s` exceeds the held total, it
navigates to page 1 — a single fetch of page 1 with size `s` — and otherwise
refetches the current page with the new size. -/
theorem pageAwarePaginator_setPageSize_fallback {α : Type}
    (p : PageAwarePaginator α) (d : Int → Int → PaginationDataDto α)
    (sz : Int) :
    ((PageAwarePaginator.setPageSize d sz p).1.viewDriver.pageSize = sz) ∧
    ((PageAwarePaginator.setPageSize d sz p).2 =
      if p.viewDriver.currentPage * sz > p.viewDriver.total then [(1, sz)]
      else [(p.viewDriver.currentPage, sz)]) ∧
    ((PageAwarePaginator.setPageSize d sz p).1.viewDriver.currentPage =
      if p.viewDriver.currentPage * sz > p.viewDriver.total then 1
      else p.viewDriver.currentPage) ∧
    ((PageAwarePaginator.setPageSize d sz p).1.viewDriver.data =
      if p.viewDriver.currentPage * sz > p.viewDriver.total then (d 1 sz).data
      else (d p.viewDriver.currentPage sz).data) := by
  refine ⟨?_, ?_, ?_, ?_⟩ <;>
    simp only [PageAwarePaginator.setPageSize, PageAwarePaginator.setPage,
      PageAwarePaginator.loadData, PageAwarePaginator.passDataToViewDriver,
      PageAwarePaginator.flush, PageAwarePaginator.getCurrentPage,
      PageAwarePaginator.getTotal, PageAwarePaginator.getPageSize,
      Option.getD_none] <;>
    split <;> simp

/-! ## JavaScript values

A common value universe for the request/payload layers: `null`,
`undefined`, strings, numbers (the modelled payloads only use integral
numbers), booleans, `Date` (opaque, identified by its `toISOString()`
rendering), `Blob`/`File` (opaque, identified by a tag), arrays and plain
objects (ordered key/value lists, as JavaScript object iteration is
ordered). -/

inductive JSValue where
  | vnull
  | vundef
  | vstr (s : String)
  | vnum (n : Int)
  | vbool (b : Bool)
  | vdate (iso : String)
  | vblob (tag : Nat)
  | varr (elems : List JSValue)
  | vobj (fields : List (String × JSValue))
deriving Repr

/-- An entry appended to a `FormData`: either a string part or a
`Blob`/`File` part (appended by reference). -/
inductive FormEntry where
  | str (s : String)
  | blob (tag : Nat)
deriving Repr, DecidableEq

namespace FormDataBody

mutual

/-- One step of the encoder's per-value dispatch, from
`FormDataBody.toFormData` in `src/service/requests/bodies/FormDataBody.ts`:
null ⇒ empty string under the same key; undefined ⇒ throw
`'Unexpected value'`; `Date` ⇒ its ISO string; arrays ⇒ recursion with
bracket keys `key[i]` (via the singleton-object recursion in the source);
`Blob`/`File` ⇒ appended directly; plain objects ⇒ recursion with the key as
namespace; string/number/boolean ⇒ `String(value)`. -/
def toFormDataValue : String → JSValue → Except String (List (String × FormEntry))
  | formKey, .vnull => .ok [(formKey, .str "")]
  | _, .vundef => .error "Unexpected value"
  | formKey, .vdate iso => .ok [(formKey, .str iso)]
  | formKey, .varr elems => toFormDataArray formKey 0 elems
  | formKey, .vblob tag => .ok [(formKey, .blob tag)]
  | formKey, .vobj fields => toFormData fields (some formKey)
  | formKey, .vstr s => .ok [(formKey, .str s)]
  | formKey, .vnum n => .ok [(formKey, .str (toString n))]
  | formKey, .vbool b => .ok [(formKey, .str (if b then "true" else "false"))]

/-- Bracket-notation recursion over an array's elements: element `i` goes
under `formKey[i]` (the source reaches this by re-entering `toFormData` on
the singleton object `{ [String(i)]: value[i] }` with namespace `formKey`). -/
def toFormDataArray : String → Nat → List JSValue → Except String (List (String × FormEntry))
  | _, _, [] => .ok []
  | formKey, i, e :: rest => do
    let h ← toFormDataValue (formKey ++ "[" ++ toString i ++ "]") e
    let t ← toFormDataArray formKey (i + 1) rest
    .ok (h ++ t)

/-- The encoder's field loop: each own property is encoded under
`namespace[property]` when a namespace is set, else under `property`. -/
def toFormData : List (String × JSValue) → Option String → Except String (List (String × FormEntry))
  | [], _ => .ok []
  | (property, value) :: rest, ns => do
    let formKey := match ns with
      | some n => n ++ "[" ++ property ++ "]"
      | none => property
    let h ← toFormDataValue formKey value
    let t ← toFormData rest ns
    .ok (h ++ t)

end

end FormDataBody

/-- `new FormDataBody(data)` runs `toFormData(data)` in the constructor, so
an encoding failure is thrown at construction time. -/
def FormDataBody.make (data : List (String × JSValue)) :
    Except String (List (String × FormEntry)) :=
  FormDataBody.toFormData data none

mutual

/-- `true` iff an explicit `undefined` occurs anywhere in the value. -/
def JSValue.containsUndef : JSValue → Bool
  | .vundef => true
  | .varr elems => JSValue.containsUndefList elems
  | .vobj fields => JSValue.containsUndefFields fields
  | _ => false

/-- `containsUndef` over an array's elements. -/
def JSValue.containsUndefList : List JSValue → Bool
  | [] => false
  | e :: rest => e.containsUndef || JSValue.containsUndefList rest

/-- `containsUndef` over an object's fields. -/
def JSValue.containsUndefFields : List (String × JSValue) → Bool
  | [] => false
  | (_, v) :: rest => v.containsUndef || JSValue.containsUndefFields rest

end

/-- Whether an `Except` result is a success. -/
def exceptOk {ε α : Type} : Except ε α → Bool
  | .ok _ => true
  | .error _ => false

/-- Sequencing two `Except` computations and repackaging their results
succeeds exactly when both succeed. -/
theorem exceptOk_bind_pair {ε α β γ : Type} (x : Except ε α) (y : Except ε β)
    (g : α → β → γ) :
    exceptOk (do
      let a ← x
      let b ← y
      Except.ok (g a b)) = (exceptOk x && exceptOk y) := by
  cases x <;> cases y <;> rfl

mutual

/-- The per-value encoder succeeds exactly when no explicit `undefined`
occurs in the value. -/
theorem toFormDataValue_ok (v : JSValue) (key : String) :
    exceptOk (FormDataBody.toFormDataValue key v) = !v.containsUndef := by
  cases v with
  | varr elems =>
    simpa [FormDataBody.toFormDataValue, JSValue.containsUndef] using
      toFormDataArray_ok elems key 0
  | vobj fields =>
    simpa [FormDataBody.toFormDataValue, JSValue.containsUndef] using
      toFormData_ok fields (some key)
  | _ => rfl

/-- The array encoder succeeds exactly when no element contains an explicit
`undefined`. -/
theorem toFormDataArray_ok (elems : List JSValue) (key : String) (i : Nat) :
    exceptOk (FormDataBody.toFormDataArray key i elems) =
      !JSValue.containsUndefList elems := by
  cases elems with
  | nil => rfl
  | cons e rest =>
    rw [FormDataBody.toFormDataArray, exceptOk_bind_pair,
      toFormDataValue_ok e (key ++ "[" ++ toString i ++ "]"),
      toFormDataArray_ok rest key (i + 1)]
    simp [JSValue.containsUndefList]

/-- The field-loop encoder succeeds exactly when no field's value contains
an explicit `undefined`. -/
theorem toFormData_ok (fields : List (String × JSValue)) (ns : Option String) :
    exceptOk (FormDataBody.toFormData fields ns) =
      !JSValue.containsUndefFields fields := by
  cases fields with
  | nil => rfl
  | cons f rest =>
    obtain ⟨property, value⟩ := f
    simp only [FormDataBody.toFormData]
    rw [exceptOk_bind_pair,
      toFormDataValue_ok value
        (match ns with | some n => n ++ "[" ++ property ++ "]" | none => property),
      toFormData_ok rest ns]
    simp [JSValue.containsUndefFields]

end

/-- C8: `FormDataBody` encodes a null field as an empty string under the
same key, a `Date` as its ISO-8601 string, appends `Blob`/`File` and
primitive values directly, recurses into arrays with bracket notation and
into plain objects, and fails fast at construction — encoding returns an
error — exactly when a value it cannot encode (an explicit `undefined`)
occurs anywhere in the input record. -/
theorem formDataBody_encoding (key iso s : String) (tag : Nat) (n : Int)
    (b : Bool) (fields : List (String × JSValue))
    (data : List (String × JSValue)) :
    (FormDataBody.toFormDataValue key .vnull = .ok [(key, .str "")]) ∧
    (FormDataBody.toFormDataValue key (.vdate iso) = .ok [(key, .str iso)]) ∧
    (FormDataBody.toFormDataValue key (.vblob tag) = .ok [(key, .blob tag)]) ∧
    (FormDataBody.toFormDataValue key (.vstr s) = .ok [(key, .str s)]) ∧
    (FormDataBody.toFormDataValue key (.vnum n) = .ok [(key, .str (toString n))]) ∧
    (FormDataBody.toFormDataValue key (.vbool b) =
      .ok [(key, .str (if b then "true" else "false"))]) ∧
    (FormDataBody.toFormDataValue key (.vobj fields) =
      FormDataBody.toFormData fields (some key)) ∧
    (FormDataBody.make [("tags", .varr [.vstr "a", .vstr "b"])] =
      .ok [("tags[0]", .str "a"), ("tags[1]", .str "b")]) ∧
    (FormDataBody.make [("meta", .vobj [("id", .vstr "m1"), ("flag", .vnull)])] =
      .ok [("meta[id]", .str "m1"), ("meta[flag]", .str "")]) ∧
    (FormDataBody.make [("missing", .vundef)] = .error "Unexpected value") ∧
    (exceptOk (FormDataBody.make data) = !JSValue.containsUndefFields data) := by
  refine ⟨rfl, rfl, rfl, rfl, rfl, rfl, rfl, by rfl, by rfl, by rfl, ?_⟩
  exact toFormData_ok data none

/-! ## BaseForm payload transformation

The `BaseForm` implementation is code of this repository that is not under
`src/` — only its unit tests (`BaseForm transformers / getters`) and its
documentation (`docs/vue/forms.md`) are.  The payload transformer and the
getter-name derivation below are therefore modelled from the spec. -/

namespace BaseForm

/-- Modelled from the spec: uppercase only the first character of a name,
leaving the rest untouched (the "first character uppercased, no further
case conversion" operation of §4.3's getter-name derivation). -/
def upperFirst (s : String) : String :=
  match s.toList with
  | [] => ""
  | c :: cs => String.mk (c.toUpper :: cs)

/-- Split a character list at the characters selected by `p`, keeping the
(possibly empty) fragments between delimiters. -/
def splitChars (p : Char → Bool) : List Char → List (List Char)
  | [] => [[]]
  | c :: cs =>
    let r := splitChars p cs
    if p c then [] :: r
    else
      match r with
      | [] => [[c]]
      | w :: ws => (c :: w) :: ws

/-- Lowercase every character of a name. -/
def lowerStr (s : String) : String :=
  String.mk (s.toList.map Char.toLower)

/-- Modelled from the spec: the word-splitting half of camel-casing — a
name is split at `_`, `-` and space delimiters, dropping empty fragments. -/
def wordsOf (s : String) : List String :=
  ((splitChars (fun c => c = '_' || c = '-' || c = ' ') s.toList).map
    (fun w => String.mk w)).filter (· ≠ "")

/-- Modelled from the spec: convert a delimiter-separated name to
camel-case — first word lowercased, every later word lowercased and then
capitalized. -/
def camelCase (s : String) : String :=
  match wordsOf s with
  | [] => ""
  | w :: ws =>
    lowerStr w ++ String.join (ws.map (fun x => upperFirst (lowerStr x)))

/-- Modelled from the spec (§4.3): the field getter for top-level field `F`
is named `get` + `F` with only its first character uppercased (no further
case conversion). -/
def fieldGetterName (F : String) : String :=
  "get" ++ upperFirst F

/-- Modelled from the spec (§4.3): the composite getter for parent field
`F` and nested child property `P` is named `get` + (`F`, first character
uppercased only) + (`P`, converted to camel-case and then its first
character uppercased). -/
def compositeGetterName (F P : String) : String :=
  "get" ++ upperFirst F ++ upperFirst (camelCase P)

/-- Modelled from the spec (§4.3 and the docs' `started_at` ⇒
`getStartedAt` example): the appended-field getter for append entry `A` is
named `get` + `A` camel-cased and first-character-uppercased. -/
def appendedGetterName (A : String) : String :=
  "get" ++ upperFirst (camelCase A)

/-- Modelled from the spec: a form's payload-transformation configuration.
A field getter is an entry `(F, g)` where `g` maps the field's current
value to `none` (the omission marker, JavaScript `undefined`) or
`some` replacement; a composite getter is keyed by `(F, P)`; an append
entry `(A, r)` carries the zero-argument appended getter's return value
`r` (`none` = omission marker); `ignore` lists fields excluded from the
top-level walk. -/
structure FormConfig where
  fieldGetters : List (String × (JSValue → Option JSValue))
  compositeGetters : List ((String × String) × (JSValue → Option JSValue))
  append : List (String × Option JSValue)
  ignore : List String

/-- Modelled from the spec (§4.3 step 2): rebuild one immediate child
`(P, w)` of a branch — if a composite getter for `(F, P)` exists, its
omission marker drops `P`, any other return substitutes the value (not
walked further); otherwise the child is kept as-is. -/
def transformChild (cfg : FormConfig) (F : String) (child : String × JSValue) :
    Option (String × JSValue) :=
  match cfg.compositeGetters.lookup (F, child.1) with
  | some g => (g child.2).map (fun r => (child.1, r))
  | none => some child

/-- Modelled from the spec (§4.3 step 2): when field `F` is an array, the
composite check applies per element — object elements have each immediate
child rebuilt through `transformChild`, other elements are copied. -/
def transformElement (cfg : FormConfig) (F : String) (e : JSValue) : JSValue :=
  match e with
  | .vobj fields => .vobj (fields.filterMap (transformChild cfg F))
  | e => e

/-- Modelled from the spec (§4.3 steps 1–3): transform one top-level field.
Fields in `ignore` are excluded before getter lookup; a field getter's
omission marker excludes `F` entirely and any other return replaces the
value terminally; otherwise object/array branches are rebuilt through the
composite check and every other value is copied verbatim. -/
def transformField (cfg : FormConfig) (fld : String × JSValue) :
    Option (String × JSValue) :=
  if fld.1 ∈ cfg.ignore then none
  else
    match cfg.fieldGetters.lookup fld.1 with
    | some g => (g fld.2).map (fun r => (fld.1, r))
    | none =>
      match fld.2 with
      | .vobj kids => some (fld.1, .vobj (kids.filterMap (transformChild cfg fld.1)))
      | .varr elems => some (fld.1, .varr (elems.map (transformElement cfg fld.1)))
      | v => some (fld.1, v)

/-- Modelled from the spec (§4.3): `buildPayload()` walks the current
state's top-level fields through `transformField`, then includes every
append entry whose getter did not return the omission marker. -/
def buildPayload (cfg : FormConfig) (state : List (String × JSValue)) :
    List (String × JSValue) :=
  state.filterMap (transformField cfg) ++
    cfg.append.filterMap (fun a => a.2.map (fun r => (a.1, r)))

/-- Whether the field getter for `F` (if any) lets the field through: with
a getter, the field survives iff the getter did not return the omission
marker; with no getter the field always survives the getter step. -/
def fieldSurvives (cfg : FormConfig) (F : String) (v : JSValue) : Prop :=
  match cfg.fieldGetters.lookup F with
  | some g => (g v).isSome = true
  | none => True

/-- Whether the composite getter for `(F, P)` (if any) lets the nested
child through. -/
def compositeSurvives (cfg : FormConfig) (F P : String) (w : JSValue) : Prop :=
  match cfg.compositeGetters.lookup (F, P) with
  | some g => (g w).isSome = true
  | none => True

/-- `true` for the branch values (`object`/`array`) that §4.3 step 2 walks
into; `false` for the values step 3 copies verbatim. -/
def isBranch : JSValue → Bool
  | .vobj _ => true
  | .varr _ => true
  | _ => false

end BaseForm

/-- C2: the payload-transformation getters are looked up by exactly this
name derivation — the field getter for `F` is `get` + `F` with only its
first character uppercased (no further case conversion), the composite
getter for parent `F` and child `P` is `get` + (`F`, first character
uppercased only) + (`P`, camel-cased and then first-character-uppercased) —
and the asymmetry holds for every field name: the parent part preserves
every character of `F` beyond the first, while the child part is
camel-cased (concretely, parent `business_associate` keeps its underscore
while the same name as a child becomes `BusinessAssociate`). -/
theorem getterName_derivation (F P : String) :
    (BaseForm.fieldGetterName F = "get" ++ BaseForm.upperFirst F) ∧
    (BaseForm.compositeGetterName F P =
      "get" ++ BaseForm.upperFirst F ++
        BaseForm.upperFirst (BaseForm.camelCase P)) ∧
    ((BaseForm.upperFirst F).toList.drop 1 = F.toList.drop 1) ∧
    (BaseForm.fieldGetterName "business_associate" = "getBusiness_associate") ∧
    (BaseForm.compositeGetterName "business_associate" "some_prop" =
      "getBusiness_associateSomeProp") ∧
    (BaseForm.compositeGetterName "meta" "business_associate" =
      "getMetaBusinessAssociate") := by
  refine ⟨rfl, rfl, ?_, by rfl, by rfl, by rfl⟩
  obtain ⟨data⟩ := F
  cases data <;> simp [BaseForm.upperFirst, String.toList]

namespace BaseForm

/-- The configuration of the `ignore` counterexample form: no field,
composite or appended getters at all, and `x` listed in `ignore`. -/
def cfgIgnoreX : FormConfig :=
  { fieldGetters := [], compositeGetters := [], append := [], ignore := ["x"] }

/-- The configuration of the minimal example form from spec §8: a field
getter for `name` that returns the omission marker (the state value used
below is blank), and no other hooks. -/
def cfgNameForm : FormConfig :=
  { fieldGetters := [("name", fun _ => none)], compositeGetters := [],
    append := [], ignore := [] }

/-- The example form state `{name: '  ', email: null}`. -/
def stateNameForm : List (String × JSValue) :=
  [("name", .vstr "  "), ("email", .vnull)]

/-- `transformField` never renames a field: a surviving entry keeps its
key. -/
theorem transformField_key (cfg : FormConfig) (fld r : String × JSValue)
    (h : transformField cfg fld = some r) : r.1 = fld.1 := by
  unfold transformField at h
  split at h
  · exact absurd h (by simp)
  · split at h
    · rcases Option.map_eq_some'.mp h with ⟨a, _, rfl⟩
      rfl
    · split at h <;> (cases Option.some.inj h; rfl)

/-- A top-level field survives `transformField` exactly when it is not
ignored and its field getter (if any) did not return the omission marker. -/
theorem transformField_isSome (cfg : FormConfig) (F : String) (v : JSValue) :
    (transformField cfg (F, v)).isSome = true ↔
      (F ∉ cfg.ignore ∧ fieldSurvives cfg F v) := by
  unfold transformField fieldSurvives
  by_cases hig : F ∈ cfg.ignore
  · simp [hig]
  · simp only [hig, if_false]
    cases hlk : cfg.fieldGetters.lookup F with
    | some g => simp [hig]
    | none => cases v <;> simp [hig]

/-- `transformChild` never renames a nested child: a surviving entry keeps
its key. -/
theorem transformChild_key (cfg : FormConfig) (F : String)
    (child r : String × JSValue) (h : transformChild cfg F child = some r) :
    r.1 = child.1 := by
  unfold transformChild at h
  split at h
  · rcases Option.map_eq_some'.mp h with ⟨a, _, rfl⟩
    rfl
  · cases Option.some.inj h; rfl

/-- A nested child survives `transformChild` exactly when its composite
getter (if any) did not return the omission marker. -/
theorem transformChild_isSome (cfg : FormConfig) (F P : String) (w : JSValue) :
    (transformChild cfg F (P, w)).isSome = true ↔ compositeSurvives cfg F P w := by
  unfold transformChild compositeSurvives
  cases hlk : cfg.compositeGetters.lookup (F, P) with
  | some g => simp
  | none => simp

/-- Two entries of a key-nodup association list with the same key hold the
same value. -/
theorem nodupKeys_val_eq {β : Type} {l : List (String × β)}
    (hnd : (l.map Prod.fst).Nodup) {F : String} {v v' : β}
    (h1 : (F, v) ∈ l) (h2 : (F, v') ∈ l) : v = v' := by
  induction l with
  | nil => cases h1
  | cons a rest ih =>
    rw [List.map_cons, List.nodup_cons] at hnd
    rcases List.mem_cons.mp h1 with ha | ha
    · rcases List.mem_cons.mp h2 with hb | hb
      · exact (Prod.ext_iff.mp (ha.trans hb.symm)).2
      · subst ha
        exact absurd (show (F, v).1 ∈ List.map Prod.fst rest from
          List.mem_map.mpr ⟨(F, v'), hb, rfl⟩) hnd.1
    · rcases List.mem_cons.mp h2 with hb | hb
      · subst hb
        exact absurd (show (F, v').1 ∈ List.map Prod.fst rest from
          List.mem_map.mpr ⟨(F, v), ha, rfl⟩) hnd.1
      · exact ih hnd.2 ha hb

/-- Key membership in a key-preserving `filterMap` over an association
list. -/
theorem mem_keys_filterMap {β : Type} (f : String × β → Option (String × β))
    (hkey : ∀ a r, f a = some r → r.1 = a.1) (l : List (String × β))
    (F : String) :
    F ∈ (l.filterMap f).map Prod.fst ↔
      ∃ v, (F, v) ∈ l ∧ (f (F, v)).isSome = true := by
  simp only [List.mem_map, List.mem_filterMap]
  constructor
  · rintro ⟨r, ⟨a, ha, hfa⟩, rfl⟩
    refine ⟨a.2, ?_, ?_⟩
    · rwa [hkey a r hfa]
    · rw [hkey a r hfa]
      simp [hfa]
  · rintro ⟨v, hv, hsome⟩
    rcases Option.isSome_iff_exists.mp hsome with ⟨r, hr⟩
    exact ⟨r, ⟨(F, v), hv, hr⟩, (hkey _ r hr).symm ▸ rfl⟩

end BaseForm

/-- C1, counterexample: a form that lists `x` in its `ignore` declaration
has no getter at all for `x`, yet `buildPayload()` on the state
`{x: null}` excludes `x` — so the payload does not retain every field of
the current state whose getters never returned the omission marker, and
exclusion is not caused exclusively by omission-marker returns. -/
theorem buildPayload_ignore_counterexample :
    BaseForm.buildPayload BaseForm.cfgIgnoreX [("x", JSValue.vnull)] = [] ∧
    BaseForm.cfgIgnoreX.fieldGetters = [] ∧
    BaseForm.cfgIgnoreX.compositeGetters = [] ∧
    BaseForm.cfgIgnoreX.append = [] :=
  ⟨rfl, rfl, rfl, rfl⟩

/-- C1, amended: `buildPayload()` excludes from the returned payload
exactly the keys listed in the form's `ignore` declaration together with
those whose getter (field, composite, or appended) returned the omission
marker; every other field of the current state appears in the payload,
including fields whose value is an explicit `null`.  Concretely: a
top-level field is present iff it is not ignored and its field getter did
not omit it; an unignored branch field without a field getter is present
rebuilt through the composite check (objects directly, arrays
per-element); an unignored non-branch field without a field getter — e.g.
an explicit `null` — is copied verbatim; a nested child of a rebuilt
branch is present iff its composite getter did not omit it; an appended
name is present iff its appended getter did not omit it. -/
theorem buildPayload_membership (cfg : BaseForm.FormConfig)
    (state : List (String × JSValue)) (F : String) (v : JSValue)
    (hmem : (F, v) ∈ state) (hnodup : (state.map Prod.fst).Nodup)
    (happ : F ∉ cfg.append.map Prod.fst) :
    (F ∈ (BaseForm.buildPayload cfg state).map Prod.fst ↔
      (F ∉ cfg.ignore ∧ BaseForm.fieldSurvives cfg F v)) ∧
    (cfg.fieldGetters.lookup F = none → F ∉ cfg.ignore →
      (∀ kids, v = .vobj kids →
        (F, .vobj (kids.filterMap (BaseForm.transformChild cfg F))) ∈
          BaseForm.buildPayload cfg state) ∧
      (∀ elems, v = .varr elems →
        (F, .varr (elems.map (BaseForm.transformElement cfg F))) ∈
          BaseForm.buildPayload cfg state) ∧
      (BaseForm.isBranch v = false → (F, v) ∈ BaseForm.buildPayload cfg state)) ∧
    (∀ (kids : List (String × JSValue)) (P : String) (w : JSValue),
      (P, w) ∈ kids → (kids.map Prod.fst).Nodup →
      (P ∈ (kids.filterMap (BaseForm.transformChild cfg F)).map Prod.fst ↔
        BaseForm.compositeSurvives cfg F P w)) ∧
    (∀ A : String,
      A ∈ (cfg.append.filterMap (fun a => a.2.map (fun r => (a.1, r)))).map
          Prod.fst ↔
        ∃ r, (A, some r) ∈ cfg.append) := by
  refine ⟨?_, ?_, ?_, ?_⟩
  · unfold BaseForm.buildPayload
    rw [List.map_append, List.mem_append,
      BaseForm.mem_keys_filterMap _ (BaseForm.transformField_key cfg) state F]
    constructor
    · rintro (⟨v', hv', hsome⟩ | habs)
      · rw [← BaseForm.nodupKeys_val_eq hnodup hmem hv'] at hsome
        exact (BaseForm.transformField_isSome cfg F v).mp hsome
      · exfalso
        apply happ
        rcases List.mem_map.mp habs with ⟨r, hr, hrF⟩
        rcases List.mem_filterMap.mp hr with ⟨a, ha, hfa⟩
        rcases Option.map_eq_some'.mp hfa with ⟨x, _, rfl⟩
        exact List.mem_map.mpr ⟨a, ha, hrF⟩
    · intro h
      exact Or.inl ⟨v, hmem, (BaseForm.transformField_isSome cfg F v).mpr h⟩
  · intro hfg hig
    refine ⟨?_, ?_, ?_⟩
    · rintro kids rfl
      refine List.mem_append_left _ (List.mem_filterMap.mpr ⟨(F, .vobj kids), hmem, ?_⟩)
      simp [BaseForm.transformField, hig, hfg]
    · rintro elems rfl
      refine List.mem_append_left _ (List.mem_filterMap.mpr ⟨(F, .varr elems), hmem, ?_⟩)
      simp [BaseForm.transformField, hig, hfg]
    · intro hbr
      refine List.mem_append_left _ (List.mem_filterMap.mpr ⟨(F, v), hmem, ?_⟩)
      unfold BaseForm.transformField
      rw [if_neg hig]
      rw [show ((F, v).1 : String) = F from rfl, hfg]
      cases v <;> first
        | rfl
        | (exact absurd hbr (by simp [BaseForm.isBranch]))
  · intro kids P w hPw hnd
    rw [BaseForm.mem_keys_filterMap _ (BaseForm.transformChild_key cfg F) kids P]
    constructor
    · rintro ⟨w', hw', hsome⟩
      rw [← BaseForm.nodupKeys_val_eq hnd hPw hw'] at hsome
      exact (BaseForm.transformChild_isSome cfg F P w).mp hsome
    · intro h
      exact ⟨w, hPw, (BaseForm.transformChild_isSome cfg F P w).mpr h⟩
  · intro A
    simp only [List.mem_map, List.mem_filterMap, Option.map_eq_some']
    constructor
    · rintro ⟨r, ⟨⟨a1, a2⟩, ha, x, hx, rfl⟩, rfl⟩
      subst hx
      exact ⟨x, ha⟩
    · rintro ⟨r, hr⟩
      exact ⟨(A, r), ⟨(A, some r), hr, r, rfl, rfl⟩, rfl⟩

/-- Witness for the amended C1 theorem at the spec §8 example form
(`{name: '  ', email: null}` with a `name` getter that omits): the
hypotheses hold at this input, the explicit-`null` field `email` appears in
the payload, and the omitted field `name` does not. -/
theorem buildPayload_membership_witness :
    ((("email", JSValue.vnull) ∈ BaseForm.stateNameForm) ∧
      (BaseForm.stateNameForm.map Prod.fst).Nodup ∧
      "email" ∉ BaseForm.cfgNameForm.append.map Prod.fst ∧
      (("name", JSValue.vstr "  ") ∈ BaseForm.stateNameForm)) ∧
    ("email" ∈
      (BaseForm.buildPayload BaseForm.cfgNameForm BaseForm.stateNameForm).map
        Prod.fst) ∧
    ("name" ∉
      (BaseForm.buildPayload BaseForm.cfgNameForm BaseForm.stateNameForm).map
        Prod.fst) := by
  refine ⟨⟨by simp [BaseForm.stateNameForm], by simp [BaseForm.stateNameForm],
    by simp [BaseForm.cfgNameForm], by simp [BaseForm.stateNameForm]⟩, ?_, ?_⟩
  · exact (buildPayload_membership BaseForm.cfgNameForm BaseForm.stateNameForm
      "email" JSValue.vnull (by simp [BaseForm.stateNameForm])
      (by simp [BaseForm.stateNameForm]) (by simp [BaseForm.cfgNameForm])).1.mpr
      ⟨by simp [BaseForm.cfgNameForm], by simp [BaseForm.fieldSurvives,
        BaseForm.cfgNameForm, List.lookup]⟩
  · intro hmem
    exact absurd ((buildPayload_membership BaseForm.cfgNameForm
        BaseForm.stateNameForm "name" (JSValue.vstr "  ")
        (by simp [BaseForm.stateNameForm]) (by simp [BaseForm.stateNameForm])
        (by simp [BaseForm.cfgNameForm])).1.mp hmem).2
      (by simp [BaseForm.fieldSurvives, BaseForm.cfgNameForm, List.lookup])

/-! ## Route resource injection

From `installRouteInjection` (the caching variant, in the route-resource
binding): a `beforeResolve` guard that, per navigation, walks the matched
records parent-to-child, reuses cached payloads for unchanged params,
queues missing resolutions, evicts stale cache entries at prop names that
are no longer active, and then fires the queued resolvers without blocking
navigation.  Reactive maps (`cache`, `_injectedProps`, `_injectionState`)
are modelled as functions `String → Option _`; resolver invocations are
logged so "resolve is invoked" is a provable statement. -/

namespace RouteInjection

/-- A route-param value as vue-router delivers it: a string or an array of
strings. -/
inductive ParamValue where
  | single (s : String)
  | multiple (l : List String)

/-- A thrown JavaScript value: an `Error` instance (`e instanceof Error`)
or any other value, rendered by `String(e)`. -/
inductive JSThrown where
  | errorObj (message : String)
  | nonError (value : String)
deriving DecidableEq, Repr

/-- A JavaScript `Error` object, identified by its message. -/
structure ErrObj where
  message : String
deriving DecidableEq, Repr

/-- `e instanceof Error ? e : new Error(String(e))`. -/
def JSThrown.toErrorObj : JSThrown → ErrObj
  | .errorObj m => ⟨m⟩
  | .nonError v => ⟨v⟩

/-- The per-prop reactive `{loading, error}` state. -/
structure PropState where
  loading : Bool := false
  error : Option ErrObj := none
deriving DecidableEq, Repr

/-- The runtime injection config `{from, resolve, getter}`.  `resolve`
models the composite `cfg.resolve(paramValue).resolve()` call, which may
reject; `getter` is the optional transform (the identity when absent). -/
structure InjectRuntimeConfig (π : Type) where
  fromParam : String
  resolve : String → Except JSThrown π
  getter : π → π

/-- One matched route record, carrying its optional `meta.inject` block as
an ordered list of `(propName, config)` entries. -/
structure RouteRecord (π : Type) where
  inject : Option (List (String × InjectRuntimeConfig π)) := none

/-- The navigation target: its params and its matched records, ordered
parent to child. -/
structure RouteTo (π : Type) where
  params : List (String × ParamValue)
  matched : List (RouteRecord π)

/-- The guard's param lookup: `undefined`/missing params are skipped, an
array param contributes its first element (skipped when empty), a string
param contributes itself. -/
def paramValueOf (params : List (String × ParamValue)) (key : String) :
    Option String :=
  match params.lookup key with
  | none => none
  | some (.single s) => some s
  | some (.multiple l) => l.head?

/-- All `(propName, config)` entries of the matched records, parent to
child. -/
def injectEntries {π : Type} (toRoute : RouteTo π) :
    List (String × InjectRuntimeConfig π) :=
  toRoute.matched.foldr (fun r rest => r.inject.getD [] ++ rest) []

/-- The module-level cache (propName ↦ `{paramValue, payload}`), the
route's `_injectedProps` and `_injectionState` bags, and the log of
`resolve` invocations `(propName, paramValue)` performed so far. -/
structure NavState (π : Type) where
  cache : String → Option (String × π)
  injectedProps : String → Option π
  injectionState : String → Option PropState
  invoked : List (String × String)

/-- The accumulator of the guard's record-processing loop: hit payload
assignments, state initialisation, the resolver registry, the set of
active prop names, and the queue of pending (miss) resolutions. -/
structure Phase1Acc (π : Type) where
  injectedProps : String → Option π
  injectionState : String → Option PropState
  resolvers : String → Option (InjectRuntimeConfig π × String)
  active : List String
  pending : List (String × InjectRuntimeConfig π × String)

/-- One iteration of the guard's entry loop: skip when the param value is
unavailable; otherwise mark the prop active, initialise its state if
absent, register its resolver; then on a cache hit (same `paramValue`)
assign the cached payload into the injected-props bag, and otherwise set
`loading` and queue the resolution. -/
def processEntry {π : Type} (cache : String → Option (String × π))
    (params : List (String × ParamValue)) (acc : Phase1Acc π)
    (e : String × InjectRuntimeConfig π) : Phase1Acc π :=
  match paramValueOf params e.2.fromParam with
  | none => acc
  | some paramValue =>
    let propName := e.1
    let acc := { acc with active := acc.active ++ [propName] }
    let acc :=
      if (acc.injectionState propName).isSome then acc
      else
        { acc with
          injectionState := fun p =>
            if p = propName then some {} else acc.injectionState p }
    let acc :=
      { acc with
        resolvers := fun p =>
          if p = propName then some (e.2, paramValue) else acc.resolvers p }
    let queue : Phase1Acc π :=
      { acc with
        injectionState := fun p =>
          if p = propName then
            some { (acc.injectionState propName).getD {} with loading := true }
          else acc.injectionState p,
        pending := acc.pending ++ [(propName, e.2, paramValue)] }
    match cache propName with
    | some c =>
      if c.1 = paramValue then
        { acc with
          injectedProps := fun p =>
            if p = propName then some c.2 else acc.injectedProps p }
      else queue
    | none => queue

/-- `resolveProp`: set `loading` (unless silent) and clear `error`; invoke
`cfg.resolve(paramValue).resolve()`; on fulfilment apply the getter, write
the cache and the injected-props bag and return the payload; on rejection
store the thrown value as an `Error` object in the prop's error state and
re-throw; in both cases `loading` ends `false` (the `finally`).  The
invocation is appended to the log. -/
def resolvePropRun {π : Type} (silent : Bool) (propName : String)
    (cfg : InjectRuntimeConfig π) (paramValue : String) (st : NavState π) :
    NavState π × Except JSThrown π :=
  let ps0 := (st.injectionState propName).getD {}
  let ps : PropState :=
    { ps0 with loading := if silent then ps0.loading else true, error := none }
  match cfg.resolve paramValue with
  | .ok payload0 =>
    let payload := cfg.getter payload0
    ({ st with
        cache := fun p =>
          if p = propName then some (paramValue, payload) else st.cache p,
        injectedProps := fun p =>
          if p = propName then some payload else st.injectedProps p,
        injectionState := fun p =>
          if p = propName then some { ps with loading := false }
          else st.injectionState p,
        invoked := st.invoked ++ [(propName, paramValue)] },
      .ok payload)
  | .error e =>
    ({ st with
        injectionState := fun p =>
          if p = propName then
            some { ps with loading := false, error := some e.toErrorObj }
          else st.injectionState p,
        invoked := st.invoked ++ [(propName, paramValue)] },
      .error e)

/-- One queued background resolution: the pending-resolver wrapper awaits
`resolveProp()` inside `try/catch`, logging a failure — the rejection is
discarded and only the state effects remain. -/
def runPendingOne {π : Type} (st : NavState π) (propName : String)
    (cfg : InjectRuntimeConfig π) (paramValue : String) : NavState π :=
  (resolvePropRun false propName cfg paramValue st).1

/-- What one navigation leaves behind: the updated state and the resolver
registry attached to `to.meta`. -/
structure NavOutcome (π : Type) where
  state : NavState π
  resolvers : String → Option (InjectRuntimeConfig π × String)

/-- One run of the `beforeResolve` guard on a navigation to `to`, starting
from the module cache `cache`: process all matched entries, evict cache
entries whose prop name is not active, then fire the pending resolutions
(they settle after the guard returns; their effects are folded in
in queue order). -/
def installRouteInjectionStep {π : Type} (cache : String → Option (String × π))
    (toRoute : RouteTo π) : NavOutcome π :=
  let acc := (injectEntries toRoute).foldl (processEntry cache toRoute.params)
    { injectedProps := fun _ => none, injectionState := fun _ => none,
      resolvers := fun _ => none, active := [], pending := [] }
  let cache1 : String → Option (String × π) := fun p =>
    if acc.active.contains p then cache p else none
  let st0 : NavState π :=
    { cache := cache1, injectedProps := acc.injectedProps,
      injectionState := acc.injectionState, invoked := [] }
  let st := acc.pending.foldl (fun s e => runPendingOne s e.1 e.2.1 e.2.2) st0
  { state := st, resolvers := acc.resolvers }

/-- `to.meta.refresh(propName, {silent})`: re-run that prop's resolver
(bypassing the cache check) and propagate its outcome to the caller;
`none` (JavaScript `undefined`) when no resolver is registered. -/
def metaRefresh {π : Type} (o : NavOutcome π) (propName : String)
    (silent : Bool) : NavState π × Option (Except JSThrown π) :=
  match o.resolvers propName with
  | some (cfg, pv) =>
    let r := resolvePropRun silent propName cfg pv o.state
    (r.1, some r.2)
  | none => (o.state, none)

/-- The cache holds prop `p` resolved at param value `v`. -/
def cacheHit {π : Type} (cache : String → Option (String × π))
    (p v : String) : Prop :=
  ∃ payload, cache p = some (v, payload)

/-- The entry selector realised by the guard's queueing decision: an entry
is queued iff its param value is available and the cache does not hold the
prop at that same value. -/
def entrySel {π : Type} (cache : String → Option (String × π))
    (params : List (String × ParamValue)) (e : String × InjectRuntimeConfig π) :
    Option (String × InjectRuntimeConfig π × String) :=
  match paramValueOf params e.2.fromParam with
  | none => none
  | some v =>
    match cache e.1 with
    | some c => if c.1 = v then none else some (e.1, e.2, v)
    | none => some (e.1, e.2, v)

/-- The active-prop selector: an entry contributes its prop name iff its
param value is available. -/
def activeSel {π : Type} (params : List (String × ParamValue))
    (e : String × InjectRuntimeConfig π) : Option String :=
  (paramValueOf params e.2.fromParam).map (fun _ => e.1)

/-- One loop iteration queues exactly the selection `entrySel` makes. -/
theorem processEntry_pending {π : Type} (cache : String → Option (String × π))
    (params : List (String × ParamValue)) (acc : Phase1Acc π)
    (e : String × InjectRuntimeConfig π) :
    (processEntry cache params acc e).pending =
      acc.pending ++ (entrySel cache params e).toList := by
  unfold processEntry entrySel
  cases hp : paramValueOf params e.2.fromParam with
  | none => simp [hp]
  | some v =>
    simp only [hp]
    cases hc : cache e.1 with
    | none =>
      simp only [hc]
      repeat' split <;> simp
    | some c =>
      simp only [hc]
      by_cases hcv : c.1 = v <;> repeat' split <;> simp [hcv]

/-- One loop iteration marks active exactly the selection `activeSel`
makes. -/
theorem processEntry_active {π : Type} (cache : String → Option (String × π))
    (params : List (String × ParamValue)) (acc : Phase1Acc π)
    (e : String × InjectRuntimeConfig π) :
    (processEntry cache params acc e).active =
      acc.active ++ (activeSel params e).toList := by
  unfold processEntry activeSel
  cases hp : paramValueOf params e.2.fromParam with
  | none => simp [hp]
  | some v =>
    simp only [hp]
    cases hc : cache e.1 with
    | none =>
      simp only [hc]
      repeat' split <;> simp
    | some c =>
      simp only [hc]
      by_cases hcv : c.1 = v <;> repeat' split <;> simp [hcv]

/-- The whole record loop queues exactly the entries `entrySel` selects, in
order. -/
theorem foldl_processEntry_pending {π : Type}
    (cache : String → Option (String × π)) (params : List (String × ParamValue))
    (entries : List (String × InjectRuntimeConfig π)) (acc : Phase1Acc π) :
    (entries.foldl (processEntry cache params) acc).pending =
      acc.pending ++ entries.filterMap (entrySel cache params) := by
  induction entries generalizing acc with
  | nil => simp
  | cons e rest ih =>
    rw [List.foldl_cons, ih, processEntry_pending]
    cases h : entrySel cache params e <;> simp [h]

/-- The whole record loop marks active exactly the prop names `activeSel`
selects, in order. -/
theorem foldl_processEntry_active {π : Type}
    (cache : String → Option (String × π)) (params : List (String × ParamValue))
    (entries : List (String × InjectRuntimeConfig π)) (acc : Phase1Acc π) :
    (entries.foldl (processEntry cache params) acc).active =
      acc.active ++ entries.filterMap (activeSel params) := by
  induction entries generalizing acc with
  | nil => simp
  | cons e rest ih =>
    rw [List.foldl_cons, ih, processEntry_active]
    cases h : activeSel params e <;> simp [h]

/-- A loop iteration over an entry with a different prop name leaves the
injected-props bag unchanged at `p`. -/
theorem processEntry_injectedProps_ne {π : Type}
    (cache : String → Option (String × π)) (params : List (String × ParamValue))
    (acc : Phase1Acc π) (e : String × InjectRuntimeConfig π) (p : String)
    (h : e.1 ≠ p) :
    (processEntry cache params acc e).injectedProps p = acc.injectedProps p := by
  unfold processEntry
  cases hp : paramValueOf params e.2.fromParam with
  | none => simp only [hp]
  | some v =>
    simp only [hp]
    cases hc : cache e.1 with
    | none =>
      simp only [hc]
      repeat' split <;> simp [(Ne.symm h : p ≠ e.1)]
    | some c =>
      simp only [hc]
      by_cases hcv : c.1 = v <;> repeat' split <;>
        simp [hcv, (Ne.symm h : p ≠ e.1)]

/-- A loop iteration over an entry whose param is available and cached at
the same value assigns the cached payload into the injected-props bag. -/
theorem processEntry_injectedProps_hit {π : Type}
    (cache : String → Option (String × π)) (params : List (String × ParamValue))
    (acc : Phase1Acc π) (e : String × InjectRuntimeConfig π) (v : String)
    (payload : π) (hp : paramValueOf params e.2.fromParam = some v)
    (hc : cache e.1 = some (v, payload)) :
    (processEntry cache params acc e).injectedProps e.1 = some payload := by
  unfold processEntry
  rw [hp]
  simp only [hc]
  repeat' split <;> simp_all

/-- The remaining loop leaves the injected-props bag unchanged at a prop
name that no remaining entry declares. -/
theorem foldl_processEntry_injectedProps_ne {π : Type}
    (cache : String → Option (String × π)) (params : List (String × ParamValue))
    (entries : List (String × InjectRuntimeConfig π)) (acc : Phase1Acc π)
    (p : String) (h : p ∉ entries.map Prod.fst) :
    (entries.foldl (processEntry cache params) acc).injectedProps p =
      acc.injectedProps p := by
  induction entries generalizing acc with
  | nil => rfl
  | cons e rest ih =>
    rw [List.map_cons] at h
    rw [List.foldl_cons, ih _ (fun hx => h (List.mem_cons_of_mem _ hx)),
      processEntry_injectedProps_ne]
    exact fun hx => h (hx ▸ List.mem_cons_self _ _)

/-- One background resolution appends exactly one invocation to the log. -/
theorem runPendingOne_invoked {π : Type} (st : NavState π) (p : String)
    (cfg : InjectRuntimeConfig π) (v : String) :
    (runPendingOne st p cfg v).invoked = st.invoked ++ [(p, v)] := by
  unfold runPendingOne resolvePropRun
  cases cfg.resolve v <;> rfl

/-- One background resolution leaves the cache unchanged at other prop
names. -/
theorem runPendingOne_cache_ne {π : Type} (st : NavState π) (p : String)
    (cfg : InjectRuntimeConfig π) (v : String) (q : String) (h : q ≠ p) :
    (runPendingOne st p cfg v).cache q = st.cache q := by
  unfold runPendingOne resolvePropRun
  cases cfg.resolve v <;> simp [h]

/-- One background resolution leaves the injected-props bag unchanged at
other prop names. -/
theorem runPendingOne_injectedProps_ne {π : Type} (st : NavState π)
    (p : String) (cfg : InjectRuntimeConfig π) (v : String) (q : String)
    (h : q ≠ p) :
    (runPendingOne st p cfg v).injectedProps q = st.injectedProps q := by
  unfold runPendingOne resolvePropRun
  cases cfg.resolve v <;> simp [h]

/-- Firing the pending queue logs exactly one invocation per queued entry,
in order. -/
theorem foldl_runPendingOne_invoked {π : Type}
    (pending : List (String × InjectRuntimeConfig π × String))
    (st : NavState π) :
    (pending.foldl (fun s e => runPendingOne s e.1 e.2.1 e.2.2) st).invoked =
      st.invoked ++ pending.map (fun e => (e.1, e.2.2)) := by
  induction pending generalizing st with
  | nil => simp
  | cons e rest ih =>
    rw [List.foldl_cons, ih, runPendingOne_invoked]
    simp

/-- Firing the pending queue leaves the cache unchanged at prop names that
were not queued. -/
theorem foldl_runPendingOne_cache_ne {π : Type}
    (pending : List (String × InjectRuntimeConfig π × String))
    (st : NavState π) (p : String) (h : p ∉ pending.map Prod.fst) :
    (pending.foldl (fun s e => runPendingOne s e.1 e.2.1 e.2.2) st).cache p =
      st.cache p := by
  induction pending generalizing st with
  | nil => rfl
  | cons e rest ih =>
    rw [List.map_cons] at h
    rw [List.foldl_cons, ih _ (fun hx => h (List.mem_cons_of_mem _ hx)),
      runPendingOne_cache_ne]
    exact fun hx => h (hx ▸ List.mem_cons_self _ _)

/-- Firing the pending queue leaves the injected-props bag unchanged at
prop names that were not queued. -/
theorem foldl_runPendingOne_injectedProps_ne {π : Type}
    (pending : List (String × InjectRuntimeConfig π × String))
    (st : NavState π) (p : String) (h : p ∉ pending.map Prod.fst) :
    (pending.foldl (fun s e => runPendingOne s e.1 e.2.1 e.2.2) st).injectedProps
        p = st.injectedProps p := by
  induction pending generalizing st with
  | nil => rfl
  | cons e rest ih =>
    rw [List.map_cons] at h
    rw [List.foldl_cons, ih _ (fun hx => h (List.mem_cons_of_mem _ hx)),
      runPendingOne_injectedProps_ne]
    exact fun hx => h (hx ▸ List.mem_cons_self _ _)

/-- A queued selection's prop name is the entry's prop name. -/
theorem entrySel_key {π : Type} (cache : String → Option (String × π))
    (params : List (String × ParamValue)) (e : String × InjectRuntimeConfig π)
    (r : String × InjectRuntimeConfig π × String)
    (h : entrySel cache params e = some r) : r.1 = e.1 := by
  unfold entrySel at h
  cases hp : paramValueOf params e.2.fromParam <;> simp only [hp] at h
  · cases h
  · cases hc : cache e.1 <;> simp only [hc] at h
    · cases h; rfl
    · split at h
      · cases h
      · cases h; rfl

/-- An active prop name is a declared prop name. -/
theorem activeSel_key {π : Type} (params : List (String × ParamValue))
    (e : String × InjectRuntimeConfig π) (q : String)
    (h : activeSel params e = some q) : q = e.1 := by
  unfold activeSel at h
  cases hp : paramValueOf params e.2.fromParam <;> simp only [hp, Option.map] at h
  · cases h
  · cases h; rfl

/-- The queueing decision, characterised: an entry is selected at
`(p, cfg, v)` iff it is the entry `(p, cfg)`, its param value is `v`, and
the cache does not hold `p` at `v`. -/
theorem entrySel_eq_some_iff {π : Type} (cache : String → Option (String × π))
    (params : List (String × ParamValue)) (e : String × InjectRuntimeConfig π)
    (p : String) (cfg : InjectRuntimeConfig π) (v : String) :
    entrySel cache params e = some (p, cfg, v) ↔
      (e = (p, cfg) ∧ paramValueOf params cfg.fromParam = some v ∧
        ¬cacheHit cache p v) := by
  constructor
  · intro h
    unfold entrySel at h
    cases hp : paramValueOf params e.2.fromParam <;> simp only [hp] at h
    · cases h
    · cases hc : cache e.1 <;> simp only [hc] at h
      · cases h
        refine ⟨rfl, hp, ?_⟩
        rintro ⟨payload, hpay⟩
        rw [hc] at hpay
        cases hpay
      · split at h
        · cases h
        · cases h
          refine ⟨rfl, hp, ?_⟩
          rintro ⟨payload, hpay⟩
          rw [hc] at hpay
          cases hpay
          simp_all
  · rintro ⟨rfl, hp, hmiss⟩
    unfold entrySel
    simp only [hp]
    cases hc : cache p with
    | none => simp only [hc]
    | some c =>
      simp only [hc]
      rw [if_neg]
      intro hcv
      exact hmiss ⟨c.2, by rw [hc, ← hcv]⟩
/-- The test scenario's `invoice` injection config: resolves param value `v`
to payload `invoice-v`. -/
def invoiceCfg : InjectRuntimeConfig String :=
  { fromParam := "invoiceId", resolve := fun v => .ok ("invoice-" ++ v), getter := id }

/-- A parent route declaring `inject: {invoice: {from: invoiceId}}`,
navigated with `invoiceId = 1`. -/
def invoiceRoute : RouteTo String :=
  { params := [("invoiceId", .single "1")],
    matched := [{ inject := some [("invoice", invoiceCfg)] }] }

/-- The same parent plus a child record without injections — same
`invoiceId = 1`. -/
def invoiceChildRoute : RouteTo String :=
  { params := [("invoiceId", .single "1")],
    matched := [{ inject := some [("invoice", invoiceCfg)] }, { inject := none }] }

/-- An unrelated route declaring only `product` from `productId`. -/
def productRoute : RouteTo String :=
  { params := [("productId", .single "5")],
    matched := [{ inject := some [("product",
      { fromParam := "productId", resolve := fun v => .ok ("product-" ++ v),
        getter := id })] }] }

/-- The guard's module-level cache before any navigation. -/
def emptyCache : String → Option (String × String) := fun _ => none

/-- First navigation: to the invoice route with an empty cache. -/
def nav1 : NavOutcome String := installRouteInjectionStep emptyCache invoiceRoute
/-- Second navigation: to the invoice child route, same param. -/
def nav2 : NavOutcome String := installRouteInjectionStep nav1.state.cache invoiceChildRoute
/-- Third navigation: away, to the product route. -/
def nav3 : NavOutcome String := installRouteInjectionStep nav2.state.cache productRoute
/-- Fourth navigation: back to the invoice route, same param. -/
def nav4 : NavOutcome String := installRouteInjectionStep nav3.state.cache invoiceRoute

/-- An injection config whose resolver rejects with
`new Error('Network error')`. -/
def failingCfg : InjectRuntimeConfig String :=
  { fromParam := "invoiceId", resolve := fun _ => .error (.errorObj "Network error"),
    getter := id }

/-- A route whose only injection always fails to resolve. -/
def failingRoute : RouteTo String :=
  { params := [("invoiceId", .single "1")],
    matched := [{ inject := some [("invoice", failingCfg)] }] }

/-- A navigation to the failing route with an empty cache. -/
def navFail : NavOutcome String := installRouteInjectionStep emptyCache failingRoute

/-- The invocation log of one navigation is exactly the queued selection,
projected to `(propName, paramValue)`. -/
theorem step_invoked {π : Type} (cache : String → Option (String × π))
    (toRoute : RouteTo π) :
    (installRouteInjectionStep cache toRoute).state.invoked =
      ((injectEntries toRoute).filterMap (entrySel cache toRoute.params)).map
        (fun e => (e.1, e.2.2)) := by
  unfold installRouteInjectionStep
  simp only [foldl_runPendingOne_invoked, foldl_processEntry_pending,
    List.nil_append]

/-- The record loop assigns the cached payload for a uniquely declared,
available, cache-hit prop. -/
theorem foldl_processEntry_injectedProps_hit {π : Type}
    (cache : String → Option (String × π)) (params : List (String × ParamValue))
    (entries : List (String × InjectRuntimeConfig π)) (acc : Phase1Acc π)
    (p v : String) (cfg : InjectRuntimeConfig π) (payload : π)
    (hnd : (entries.map Prod.fst).Nodup) (hmem : (p, cfg) ∈ entries)
    (hparam : paramValueOf params cfg.fromParam = some v)
    (hhit : cache p = some (v, payload)) :
    (entries.foldl (processEntry cache params) acc).injectedProps p =
      some payload := by
  induction entries generalizing acc with
  | nil => cases hmem
  | cons e rest ih =>
    rw [List.map_cons, List.nodup_cons] at hnd
    rw [List.foldl_cons]
    rcases List.mem_cons.mp hmem with he | he
    · subst he
      rw [foldl_processEntry_injectedProps_ne cache params rest _ p hnd.1]
      exact processEntry_injectedProps_hit cache params acc (p, cfg) v payload
        hparam hhit
    · exact ih _ hnd.2 he

/-- On a cache hit (same param value) for a uniquely declared prop, the
navigation assigns the cached payload into the injected-props bag. -/
theorem step_injectedProps_hit {π : Type}
    (cache : String → Option (String × π)) (toRoute : RouteTo π)
    (p v : String) (cfg : InjectRuntimeConfig π) (payload : π)
    (hnd : ((injectEntries toRoute).map Prod.fst).Nodup)
    (hmem : (p, cfg) ∈ injectEntries toRoute)
    (hparam : paramValueOf toRoute.params cfg.fromParam = some v)
    (hhit : cache p = some (v, payload)) :
    (installRouteInjectionStep cache toRoute).state.injectedProps p =
      some payload := by
  unfold installRouteInjectionStep
  simp only []
  rw [foldl_runPendingOne_injectedProps_ne]
  · exact foldl_processEntry_injectedProps_hit cache toRoute.params
      (injectEntries toRoute) _ p v cfg payload hnd hmem hparam hhit
  · intro hpk
    rcases List.mem_map.mp hpk with ⟨r, hr, hrp⟩
    rw [foldl_processEntry_pending] at hr
    simp only [List.nil_append] at hr
    rcases List.mem_filterMap.mp hr with ⟨e, he, hsel⟩
    obtain ⟨rp, rcfg, rv⟩ := r
    simp only at hrp
    subst hrp
    have hiff := (entrySel_eq_some_iff cache toRoute.params e rp rcfg rv).mp hsel
    rw [hiff.1] at he
    have hcfg : rcfg = cfg := BaseForm.nodupKeys_val_eq hnd he hmem
    subst hcfg
    have hv : rv = v := by
      have := hiff.2.1.symm.trans hparam
      exact (Option.some.inj this)
    subst hv
    exact hiff.2.2 ⟨payload, hhit⟩

/-- After a navigation, the cache holds nothing for a prop name that no
matched record declares. -/
theorem step_cache_not_declared {π : Type}
    (cache : String → Option (String × π)) (toRoute : RouteTo π) (p : String)
    (h : ∀ cfg', (p, cfg') ∉ injectEntries toRoute) :
    (installRouteInjectionStep cache toRoute).state.cache p = none := by
  unfold installRouteInjectionStep
  simp only []
  rw [foldl_runPendingOne_cache_ne]
  · have hact : p ∉ (injectEntries toRoute).filterMap (activeSel toRoute.params) := by
      intro hmem
      rcases List.mem_filterMap.mp hmem with ⟨e, he, hsel⟩
      have hk := activeSel_key toRoute.params e p hsel
      have heq : (p, e.2) = e := by rw [hk]
      exact h e.2 (heq ▸ he)
    rw [foldl_processEntry_active]
    simp [List.elem_eq_mem, hact]
  · intro hpk
    rcases List.mem_map.mp hpk with ⟨r, hr, hrp⟩
    rw [foldl_processEntry_pending] at hr
    simp only [List.nil_append] at hr
    rcases List.mem_filterMap.mp hr with ⟨e, he, hsel⟩
    have hk := entrySel_key cache toRoute.params e r hsel
    have hep : e.1 = p := hk.symm.trans hrp
    have heq : (p, e.2) = e := by rw [← hep]
    exact h e.2 (heq ▸ he)

/-- C3: on every navigation, for each injected prop whose route param value
is available, `resolve` is invoked iff the cache does not already hold an
entry under that prop name with the same param value; on a cache hit the
cached payload is assigned into the injected-props bag without invoking
`resolve`; after the matched records are processed, every cache entry whose
prop name is not declared by the newly active route hierarchy is evicted —
so in the concrete scenario, navigating parent → child with the same param
does not re-invoke, and navigating away (evicting) and back re-invokes
exactly once more. -/
theorem routeInjection_cache_behaviour {π : Type}
    (cache : String → Option (String × π)) (toRoute : RouteTo π)
    (p v : String) (cfg : InjectRuntimeConfig π) (payload : π) :
    ((p, v) ∈ (installRouteInjectionStep cache toRoute).state.invoked ↔
      ∃ cfg', (p, cfg') ∈ injectEntries toRoute ∧
        paramValueOf toRoute.params cfg'.fromParam = some v ∧
        ¬cacheHit cache p v) ∧
    (((injectEntries toRoute).map Prod.fst).Nodup →
      (p, cfg) ∈ injectEntries toRoute →
      paramValueOf toRoute.params cfg.fromParam = some v →
      cache p = some (v, payload) →
      ((installRouteInjectionStep cache toRoute).state.injectedProps p =
          some payload ∧
        ∀ v', (p, v') ∉ (installRouteInjectionStep cache toRoute).state.invoked)) ∧
    ((∀ cfg', (p, cfg') ∉ injectEntries toRoute) →
      (installRouteInjectionStep cache toRoute).state.cache p = none) ∧
    (nav1.state.invoked = [("invoice", "1")] ∧
      nav2.state.invoked = [] ∧
      nav2.state.injectedProps "invoice" = some "invoice-1" ∧
      nav3.state.cache "invoice" = none ∧
      nav4.state.invoked = [("invoice", "1")]) := by
  have hinv : ∀ p' v' : String,
      (p', v') ∈ (installRouteInjectionStep cache toRoute).state.invoked ↔
        ∃ cfg', (p', cfg') ∈ injectEntries toRoute ∧
          paramValueOf toRoute.params cfg'.fromParam = some v' ∧
          ¬cacheHit cache p' v' := by
    intro p' v'
    rw [step_invoked]
    constructor
    · intro hmem
      rcases List.mem_map.mp hmem with ⟨r, hr, hrv⟩
      rcases List.mem_filterMap.mp hr with ⟨e, he, hsel⟩
      obtain ⟨rp, rcfg, rv⟩ := r
      have hp' : rp = p' := (Prod.ext_iff.mp hrv).1
      have hv' : rv = v' := (Prod.ext_iff.mp hrv).2
      subst hp'
      subst hv'
      have hiff := (entrySel_eq_some_iff cache toRoute.params e rp rcfg rv).mp hsel
      exact ⟨rcfg, hiff.1 ▸ he, hiff.2.1, hiff.2.2⟩
    · rintro ⟨cfg', hmem', hparam', hmiss⟩
      exact List.mem_map.mpr ⟨(p', cfg', v'),
        List.mem_filterMap.mpr ⟨(p', cfg'), hmem',
          (entrySel_eq_some_iff cache toRoute.params (p', cfg') p' cfg' v').mpr
            ⟨rfl, hparam', hmiss⟩⟩, rfl⟩
  refine ⟨hinv p v, ?_, step_cache_not_declared cache toRoute p,
    by rfl, by rfl, by rfl, by rfl, by rfl⟩
  intro hnd hmem hparam hhit
  refine ⟨step_injectedProps_hit cache toRoute p v cfg payload hnd hmem hparam
    hhit, ?_⟩
  intro v' hmem'
  rcases (hinv p v').mp hmem' with ⟨cfg', hmem₂, hparam₂, hmiss₂⟩
  have hc : cfg' = cfg := BaseForm.nodupKeys_val_eq hnd hmem₂ hmem
  subst hc
  have hv : v' = v := Option.some.inj (hparam₂.symm.trans hparam)
  subst hv
  exact hmiss₂ ⟨payload, hhit⟩

/-- Witness for C3 at the concrete parent → child navigation: the
hypotheses hold, the cached payload is reused, and no invocation is
logged. -/
theorem routeInjection_cache_behaviour_witness :
    (((injectEntries invoiceChildRoute).map Prod.fst).Nodup ∧
      ("invoice", invoiceCfg) ∈ injectEntries invoiceChildRoute ∧
      paramValueOf invoiceChildRoute.params invoiceCfg.fromParam = some "1" ∧
      nav1.state.cache "invoice" = some ("1", "invoice-1")) ∧
    ((installRouteInjectionStep nav1.state.cache
        invoiceChildRoute).state.injectedProps "invoice" = some "invoice-1" ∧
      ∀ v', ("invoice", v') ∉
        (installRouteInjectionStep nav1.state.cache
          invoiceChildRoute).state.invoked) := by
  have h1 : ((injectEntries invoiceChildRoute).map Prod.fst).Nodup := by
    simp [injectEntries, invoiceChildRoute]
  have h2 : ("invoice", invoiceCfg) ∈ injectEntries invoiceChildRoute := by
    simp [injectEntries, invoiceChildRoute]
  have h3 : paramValueOf invoiceChildRoute.params invoiceCfg.fromParam =
      some "1" := rfl
  have h4 : nav1.state.cache "invoice" = some ("1", "invoice-1") := rfl
  exact ⟨⟨h1, h2, h3, h4⟩,
    (routeInjection_cache_behaviour nav1.state.cache invoiceChildRoute "invoice"
      "1" invoiceCfg "invoice-1").2.1 h1 h2 h3 h4⟩

/-- C9: a route-resource resolution failure is stored as an `Error` object
in that prop's reactive error state with `loading` set back to `false`
(non-`Error` thrown values are wrapped via `new Error(String(e))`); the
failure is re-thrown to the caller of an explicit `refresh()`/`resolve()`
call; and background auto-resolution keeps only the state effects — the
rejection is discarded, so the navigation guard completes with the error
recorded, as the concrete failing navigation shows. -/
theorem routeInjection_error_handling {π : Type} (st : NavState π)
    (propName : String) (cfg : InjectRuntimeConfig π) (paramValue : String)
    (e : JSThrown) (silent : Bool) (o : NavOutcome π) (s m : String) :
    (cfg.resolve paramValue = .error e →
      ((resolvePropRun silent propName cfg paramValue st).1.injectionState
          propName = some { loading := false, error := some e.toErrorObj } ∧
        (resolvePropRun silent propName cfg paramValue st).2 = .error e)) ∧
    (JSThrown.toErrorObj (.errorObj m) = ⟨m⟩ ∧
      JSThrown.toErrorObj (.nonError s) = ⟨s⟩) ∧
    (o.resolvers propName = some (cfg, paramValue) →
      cfg.resolve paramValue = .error e →
      (metaRefresh o propName silent).2 = some (.error e)) ∧
    (runPendingOne st propName cfg paramValue =
      (resolvePropRun false propName cfg paramValue st).1) ∧
    (navFail.state.injectionState "invoice" =
        some { loading := false, error := some ⟨"Network error"⟩ } ∧
      navFail.state.injectedProps "invoice" = none ∧
      navFail.state.invoked = [("invoice", "1")] ∧
      (metaRefresh navFail "invoice" false).2 =
        some (.error (.errorObj "Network error"))) := by
  refine ⟨?_, ⟨rfl, rfl⟩, ?_, rfl, by rfl, by rfl, by rfl, by rfl⟩
  · intro hres
    constructor
    · simp [resolvePropRun, hres]
    · simp [resolvePropRun, hres]
  · intro hreg hres
    simp [metaRefresh, hreg, resolvePropRun, hres]

/-- Witness for C9 at the concrete failing navigation: the resolver
rejects, the error lands in the prop state, and `refresh` re-throws. -/
theorem routeInjection_error_handling_witness :
    (failingCfg.resolve "1" = .error (.errorObj "Network error") ∧
      navFail.resolvers "invoice" = some (failingCfg, "1")) ∧
    ((resolvePropRun false "invoice" failingCfg "1"
        navFail.state).1.injectionState "invoice" =
      some { loading := false,
             error := some (JSThrown.toErrorObj (.errorObj "Network error")) }) ∧
    (metaRefresh navFail "invoice" false).2 =
      some (.error (.errorObj "Network error")) := by
  have h1 : failingCfg.resolve "1" = .error (.errorObj "Network error") := rfl
  have h2 : navFail.resolvers "invoice" = some (failingCfg, "1") := rfl
  exact ⟨⟨h1, h2⟩,
    ((routeInjection_error_handling navFail.state "invoice" failingCfg "1"
      (.errorObj "Network error") false navFail "s" "m").1 h1).1,
    (routeInjection_error_handling navFail.state "invoice" failingCfg "1"
      (.errorObj "Network error") false navFail "s" "m").2.2.1 h2 h1⟩

end RouteInjection

end BlueprintTs
